import Mathlib

/-!
Verification of the streaming upload-and-analyze pipeline of the radiologist
repository against its natural-language specification.

The development shallowly embeds the TypeScript source:

* the server retry/backoff policy (`isRetryableError`, `withRetry` in the
  streaming route handler),
* the blob uploader's per-item retry policy (`uploadWithRetry` in
  `src/lib/supabase.ts`),
* the client stream consumer's step-log update (`handleProceed` in the
  single-page upload component),
* the DICOM auto-windowing arithmetic (`DicomProcessor.convertToImage`),
* the streaming analysis orchestrator (`POST` in the analyze route), modelled
  as a function from the submitted form data and oracles for the external
  effects (frame fetches, the analysis backend, the record store) to the
  trace of actions it performs, in particular the stream events it enqueues.

JavaScript machine floats on the code paths modelled here only ever perform
exact operations on (dyadic) rationals in range, so number-valued expressions
are embedded as `ℚ`; JavaScript `NaN` produced by `parseInt` is embedded as
`Option.none`.
-/

/-! ## JavaScript primitives -/

/-- Lower-case a string character-by-character, as `String.prototype.toLowerCase`
does on the ASCII strings occurring in this code base. -/
def jsToLower (s : String) : String := String.mk (s.data.map Char.toLower)

/-- First list is a prefix of the second (character lists). -/
def charsPrefix : List Char → List Char → Bool
  | [], _ => true
  | _ :: _, [] => false
  | a :: as, b :: bs => a = b && charsPrefix as bs

/-- Pattern occurs somewhere inside the list (character lists). -/
def charsContain (pat : List Char) : List Char → Bool
  | [] => pat.isEmpty
  | c :: cs => charsPrefix pat (c :: cs) || charsContain pat cs

/-- Substring containment, as `String.prototype.includes`. -/
def jsIncludes (s pat : String) : Bool := charsContain pat.toList s.toList

/-- Embed the JavaScript expression `a || b` for string-valued operands:
`null`/`undefined` (here `none`) and the empty string are falsy. -/
def jsOrStr (a b : Option String) : Option String :=
  match a with
  | some s => if s = "" then b else some s
  | none => b

/-- Embed the JavaScript expression `a || b` for number-valued operands:
`null`/`undefined` (here `none`) and `0` are falsy. -/
def jsOrNum (a b : Option Int) : Option Int :=
  match a with
  | some n => if n = 0 then b else some n
  | none => b

/-- Character is an ASCII decimal digit. -/
def isDigitChar (c : Char) : Bool := '0' ≤ c && c ≤ '9'

/-- Numeric value of an ASCII decimal digit. -/
def digitVal (c : Char) : ℕ := c.toNat - '0'.toNat

/-- Fold a digit list into a natural number. -/
def digitsToNat (ds : List Char) : ℕ :=
  ds.foldl (fun acc c => acc * 10 + digitVal c) 0

/-- Embed JavaScript `parseInt(s)` (radix argument omitted, as in the source):
skip leading whitespace, read an optional sign, then consume the longest
prefix of decimal digits; the result is `NaN` (here `none`) when no digit is
consumed.  The hexadecimal `0x` form never occurs in this pipeline's inputs
and is not modelled. -/
def parseIntJS (s : String) : Option Int :=
  let chars := s.toList.dropWhile (fun c => c = ' ' || c = '\t' || c = '\n' || c = '\r')
  let (neg, rest) :=
    match chars with
    | '-' :: cs => (true, cs)
    | '+' :: cs => (false, cs)
    | cs => (false, cs)
  let digits := rest.takeWhile isDigitChar
  if digits.isEmpty then none
  else
    let v : Int := Int.ofNat (digitsToNat digits)
    some (if neg then -v else v)

/-- Embed JavaScript `parseFloat(s)` for the decimal forms
(`digits`, `digits.digits`) that this pipeline's timestamp fields carry;
other forms yield `NaN` (here `none`). -/
def parseFloatJS (s : String) : Option ℚ :=
  let chars := s.toList.dropWhile (fun c => c = ' ' || c = '\t' || c = '\n' || c = '\r')
  let (neg, rest) :=
    match chars with
    | '-' :: cs => (true, cs)
    | '+' :: cs => (false, cs)
    | cs => (false, cs)
  let intDigits := rest.takeWhile isDigitChar
  if intDigits.isEmpty then none
  else
    let afterInt := rest.drop intDigits.length
    let fracDigits :=
      match afterInt with
      | '.' :: cs => cs.takeWhile isDigitChar
      | _ => []
    let num : ℚ := (digitsToNat intDigits : ℚ) +
      (digitsToNat fracDigits : ℚ) / ((10 : ℚ) ^ fracDigits.length)
    some (if neg then -num else num)

/-! ## Retry/backoff policy (server route, `isRetryableError` / `withRetry`) -/

/-- Shape of the error values inspected by `isRetryableError`: the
`ErrorWithCode` interface of the route handler, with the optional `cause`
object flattened into its two inspected fields. -/
structure ErrorWithCode where
  code : Option String := none
  status : Option Int := none
  message : Option String := none
  causeCode : Option String := none
  causeStatus : Option Int := none
deriving DecidableEq, Repr

/-- Transient low-level network error codes, from `isRetryableError`. -/
def transientNodeErrors : List String :=
  ["ETIMEDOUT", "ECONNRESET", "ENOTFOUND", "EAI_AGAIN"]

/-- Status check of `isRetryableError`: a present numeric status is retryable
when it is 429 or at least 500; any other status falls through to the
remaining checks. -/
def statusRetry : Option Int → Bool
  | some s => s = 429 || 500 ≤ s
  | none => false

/-- Code check of `isRetryableError`: `code && transientNodeErrors.includes(code)`. -/
def codeRetry : Option String → Bool
  | some c => !(c = "") && transientNodeErrors.contains c
  | none => false

/-- Message check of `isRetryableError`:
`String(err?.message || '').toLowerCase()` contains
`'service is currently unavailable'` or `'timeout'`. -/
def msgRetry (m : Option String) : Bool :=
  let msg := jsToLower ((jsOrStr m (some "")).getD "")
  jsIncludes msg "service is currently unavailable" || jsIncludes msg "timeout"

/-- Embed `isRetryableError` from the route handler (only the boolean
`retryable` component is modelled; `reason`/`status` are diagnostics). -/
def isRetryableError (err : ErrorWithCode) : Bool :=
  let code := jsOrStr err.code err.causeCode
  let status := jsOrNum err.status err.causeStatus
  if statusRetry status then true
  else if codeRetry code then true
  else msgRetry err.message

/-- Stated from the spec's words, for comparison with `isRetryableError`:
an error is retryable when its status (or its cause's status, when its own is
absent) is 429 or at least 500, its code (or its cause's code) is one of the
transient network codes, or its lower-cased message contains `timeout` or
`service is currently unavailable`. -/
def specRetryable (err : ErrorWithCode) : Prop :=
  (∃ s, jsOrNum err.status err.causeStatus = some s ∧ (s = 429 ∨ 500 ≤ s)) ∨
  (∃ c, jsOrStr err.code err.causeCode = some c ∧ c ∈ transientNodeErrors) ∨
  (jsIncludes (jsToLower (err.message.getD "")) "timeout" = true ∨
   jsIncludes (jsToLower (err.message.getD "")) "service is currently unavailable" = true)

/-- Outcome of one invocation of the wrapped backend call. -/
inductive CallOutcome (V : Type) where
  | ok (v : V)
  | err (e : ErrorWithCode)

/-- Result of `withRetry`: the value returned or error thrown, the list of
delays slept (in order), and the number of invocations of the wrapped call. -/
structure RetryRun (V : Type) where
  result : Except ErrorWithCode V
  delays : List ℕ
  calls : ℕ
deriving Repr

/-- Loop of `withRetry`.  The source iterates `attempt = 1, 2, ...` and stops
retrying when `!retryable || attempt > maxRetries`; `retriesLeft` carries
`maxRetries - (attempt - 1)`, so `attempt > maxRetries` is `retriesLeft = 0`.
`fn` gives the outcome of each (1-indexed) invocation and `rand` the jitter
`Math.floor(Math.random() * baseDelay)` drawn before each retry. -/
def withRetryGo {V : Type} (fn : ℕ → CallOutcome V) (rand : ℕ → ℕ)
    (baseDelay : ℕ) : (retriesLeft : ℕ) → (attempt : ℕ) → RetryRun V
  | 0, attempt =>
    match fn attempt with
    | .ok v => ⟨.ok v, [], 1⟩
    | .err e => ⟨.error e, [], 1⟩
  | r + 1, attempt =>
    match fn attempt with
    | .ok v => ⟨.ok v, [], 1⟩
    | .err e =>
      if isRetryableError e then
        let backoff := baseDelay * 2 ^ (attempt - 1)
        let delay := min (backoff + rand attempt) 10000
        let rest := withRetryGo fn rand baseDelay r (attempt + 1)
        ⟨rest.result, delay :: rest.delays, rest.calls + 1⟩
      else ⟨.error e, [], 1⟩

/-- Embed `withRetry` from the route handler, with the defaults
`maxRetries = 3`, `baseDelay = 500` supplied at call sites. -/
def withRetry {V : Type} (fn : ℕ → CallOutcome V) (rand : ℕ → ℕ)
    (maxRetries baseDelay : ℕ) : RetryRun V :=
  withRetryGo fn rand baseDelay maxRetries 1

/-! ## Blob uploader per-item retry (`uploadWithRetry` in `src/lib/supabase.ts`) -/

/-- Outcome of one invocation of the storage upload inside `uploadWithRetry`:
either the upload resolves with a path, or the storage client resolves with an
error object (`const { data, error } = await ...` with `error` set), or the
invocation throws (network failure, or any other exception).  `attempt` is the
0-indexed loop counter of the source. -/
inductive UploadOutcome where
  | ok (path : String)
  | errReturned (msg : String) (name : Option String)
  | errThrown (msg : Option String) (name : Option String)

/-- Returned-error pattern of `uploadWithRetry`:
`error.message.includes('timeout') || ...('504') || ...('503')`. -/
def returnedPattern (msg : String) : Bool :=
  jsIncludes msg "timeout" || jsIncludes msg "504" || jsIncludes msg "503"

/-- Catch-block retryability test of `uploadWithRetry`:
`error.message?.includes('timeout'|'504'|'503'|'network') || error.name === 'NetworkError'`. -/
def catchRetryable (msg name : Option String) : Bool :=
  (match msg with
   | some m => jsIncludes m "timeout" || jsIncludes m "504" || jsIncludes m "503" ||
       jsIncludes m "network"
   | none => false) ||
  name == some "NetworkError"

/-- Result of `uploadWithRetry`: the resolved path, a (re)thrown error, or the
final `Failed to upload after N attempts` error after the loop exhausts. -/
inductive UploadResult where
  | success (path : String)
  | thrownErr (message : Option String) (name : Option String)
  | exhausted (attempts : ℕ) (lastMessage : Option String)
deriving DecidableEq

/-- Loop of `uploadWithRetry` (`for (attempt = 0; attempt < maxRetries; attempt++)`).
`left` is the number of loop iterations remaining (`maxRetries - attempt`).
A returned error matching `returnedPattern` sleeps `baseDelay * 2 ^ attempt`
and continues; any other returned error is thrown and lands in the catch block
of the same iteration; a caught error retries (with the same uncapped delay)
only when `catchRetryable` holds and `attempt < maxRetries - 1`.  Alongside
the result, the list of slept delays is returned.  When a rejecting upload is
modelled, the invocation count equals the delay count of the
returned-pattern path plus one, or the delay count plus one on the catch path. -/
def uploadGo (oc : ℕ → UploadOutcome) (base maxRetries : ℕ) :
    (left : ℕ) → (attempt : ℕ) → (lastMsg : Option String) → UploadResult × List ℕ
  | 0, _, lastMsg => (.exhausted maxRetries lastMsg, [])
  | left + 1, attempt, _ =>
    match oc attempt with
    | .ok p => (.success p, [])
    | .errReturned msg name =>
      if returnedPattern msg then
        let d := base * 2 ^ attempt
        let r := uploadGo oc base maxRetries left (attempt + 1) (some msg)
        (r.1, d :: r.2)
      else
        if catchRetryable (some msg) name && decide (attempt < maxRetries - 1) then
          let d := base * 2 ^ attempt
          let r := uploadGo oc base maxRetries left (attempt + 1) (some msg)
          (r.1, d :: r.2)
        else (.thrownErr (some msg) name, [])
    | .errThrown msg name =>
      if catchRetryable msg name && decide (attempt < maxRetries - 1) then
        let d := base * 2 ^ attempt
        let r := uploadGo oc base maxRetries left (attempt + 1) msg
        (r.1, d :: r.2)
      else (.thrownErr msg name, [])

/-- Embed `uploadWithRetry` with its defaults `maxRetries = 3`,
`baseDelay = 1000` supplied at the call site. -/
def uploadWithRetry (oc : ℕ → UploadOutcome) (maxRetries baseDelay : ℕ) :
    UploadResult × List ℕ :=
  uploadGo oc baseDelay maxRetries maxRetries 0 none

/-- Spec-side transient-network message pattern of the uploader:
contains `timeout`, `network`, `503` or `504`. -/
def transientUploadMsg (m : String) : Prop :=
  jsIncludes m "timeout" = true ∨ jsIncludes m "network" = true ∨
  jsIncludes m "503" = true ∨ jsIncludes m "504" = true

/-- Concrete upload used to refute the uploader-retry claim: every invocation
throws an error whose message matches no transient pattern but whose `name`
is `NetworkError`. -/
def cexUploadOutcome : ℕ → UploadOutcome :=
  fun _ => .errThrown (some "connection refused") (some "NetworkError")

/-! ## Client stream consumer step log (`handleProceed`, SSE loop) -/

/-- Client-side state touched by a `step` field of an incoming ProgressEvent:
the rendered step log and the `currentStep` variable of `handleProceed`. -/
structure ConsumerState where
  steps : List String
  currentStep : Option String
deriving DecidableEq

/-- Embed the step-handling branch of the SSE read loop:
`if (data.step && data.step !== currentStep) { currentStep = data.step;`
`setSteps(prev => prev[prev.length-1] === data.step ? prev : [...prev, data.step]) }`. -/
def handleStepEvent (st : ConsumerState) (s : String) : ConsumerState :=
  if !(s == "") && !(st.currentStep == some s) then
    { currentStep := some s
      steps := if st.steps.getLast? = some s then st.steps else st.steps ++ [s] }
  else st

/-- Feed a sequence of `step` events through the consumer. -/
def consumeSteps (init : ConsumerState) (evs : List String) : ConsumerState :=
  evs.foldl handleStepEvent init

/-- Stated from the spec's words, for comparison: append each arriving step
unless it equals the immediately preceding log entry. -/
def stepLogSpec (evs : List String) : List String :=
  evs.foldl (fun acc s => if acc.getLast? = some s then acc else acc ++ [s]) []

/-! ## DICOM auto-windowing (`DicomProcessor.convertToImage`, grayscale path) -/

/-- Embed the per-pixel windowing arithmetic of `convertToImage` for
single-sample-per-pixel data: window center `(max+min)/2` and width
`max-min` from the observed pixel range, clamp at the window edges, linear
rescale to 0–255 in between, and flip for `MONOCHROME1`.  All operations are
exact in IEEE doubles here, so the embedding uses `ℚ`. -/
def windowPixel (mono1 : Bool) (mn mx p : ℚ) : ℚ :=
  let windowCenter := (mx + mn) / 2
  let windowWidth := mx - mn
  let lower := windowCenter - windowWidth / 2
  let upper := windowCenter + windowWidth / 2
  let normalized : ℚ :=
    if p ≤ lower then 0
    else if upper ≤ p then 255
    else ((p - lower) / windowWidth) * 255
  if mono1 then 255 - normalized else normalized

/-- Floor of a rational: integer division of numerator by (positive)
denominator, kept explicit so that concrete evaluations reduce. -/
def ratFloor (q : ℚ) : ℤ := q.num / q.den

/-- Round to the nearest integer, ties to even (IEEE `roundTiesToEven`). -/
def roundHalfEven (q : ℚ) : ℤ :=
  let f := ratFloor q
  if q - f < 1 / 2 then f
  else if 1 / 2 < q - f then f + 1
  else if f % 2 = 0 then f else f + 1

/-- Embed the `Uint8ClampedArray` store `data[idx] = normalized`: round to
nearest (ties to even) and clamp into `0..255`. -/
def clampedStore (q : ℚ) : ℕ := (min 255 (max 0 (roundHalfEven q))).toNat

/-! ## Streaming analysis orchestrator (`POST` of the analyze route) -/

/-- Data-bearing stream events enqueued by the orchestrator, tagged by shape:
plain progress/step updates, the `frames_saved` event carrying the resolved
count, the terminal `results` event (its analysis payload is not inspected by
any claim and is elided), and the terminal `error` event. -/
inductive SSEEvent where
  | prog (progress : ℚ) (step : String)
  | framesSaved (progress : ℚ) (step : String) (count : ℕ)
  | results (progress : ℚ)
  | err (msg : String)
deriving DecidableEq

/-- Frame record pushed onto the `frames` array by the resolution loop:
its parsed `frameNumber` and `timestamp` fields (`none` embeds `NaN`), and
whether it came from a storage URL or inline base64 data.  The pixel bytes
and local file path are not inspected by any claim and are elided. -/
structure ResolvedFrame where
  frameNumber : Option Int
  timestamp : Option ℚ
  fromUrl : Bool
deriving DecidableEq

/-- Observable actions of one orchestrator run, in program order: enqueue a
stream event, resolve one frame (inline decode or completed storage fetch),
the single analysis-backend call, the best-effort database save, the
temp-directory cleanup, and closing the stream. -/
inductive RunAction where
  | emit (e : SSEEvent)
  | resolveFrame (index : ℕ) (f : ResolvedFrame)
  | callBackend (frames : List ResolvedFrame)
  | saveDatabase
  | cleanupDir
  | closeStream
deriving DecidableEq

/-- Submitted multipart form data, as read by the handler.  `none` embeds an
absent field; per-index functions give the `frameUrl_<i>`-style fields.  The
DICOM metadata fields are also read by the handler but never influence the
emitted stream or any other modelled action, so they are elided. -/
structure FormDataIn where
  frameCountField : Option String
  problemField : Option String
  sessionIdField : Option String
  frameUrlField : ℕ → Option String
  framePathField : ℕ → Option String
  frameDataField : ℕ → Option String
  timestampField : ℕ → Option String
  frameNumberField : ℕ → Option String

/-- Oracles for the run's external effects: whether the storage fetch of frame
`i` yields a 2xx response with its bytes, the outcome of the analysis-backend
call (after its internal retries; the thrown error's message on failure), and
whether the database save succeeds (its failure is swallowed). -/
structure Oracles where
  fetchOk : ℕ → Bool
  backendResult : Except String Unit
  saveOk : Bool

/-- Embed `formData.get(name) as string || dflt`. -/
def fieldOr (o : Option String) (dflt : String) : String :=
  (jsOrStr o (some dflt)).getD dflt

/-- JavaScript truthiness of a string-or-null form field. -/
def truthy (o : Option String) : Bool :=
  match o with
  | some s => !(s == "")
  | none => false

/-- String interpolation of a JavaScript number that may be `NaN`. -/
def showJSNum (o : Option Int) : String :=
  match o with
  | some n => toString n
  | none => "NaN"

/-- Embed `parseInt(formData.get('frameCount') as string || '0')`. -/
def frameCountOf (fd : FormDataIn) : Option Int :=
  parseIntJS (fieldOr fd.frameCountField "0")

/-- Frame index `i` carries a storage reference: `if (frameUrl && framePath)`. -/
def isRef (fd : FormDataIn) (i : ℕ) : Bool :=
  truthy (fd.frameUrlField i) && truthy (fd.framePathField i)

/-- Frame index `i` carries inline base64 data (`if (dataUrl)`), reached only
when it carries no storage reference. -/
def isInline (fd : FormDataIn) (i : ℕ) : Bool :=
  truthy (fd.frameDataField i)

/-- Parsed `frameNumber_<i>` field:
`parseInt(formData.get(...) as string || String(i + 1))`. -/
def frameNumAt (fd : FormDataIn) (i : ℕ) : Option Int :=
  parseIntJS (fieldOr (fd.frameNumberField i) (toString (i + 1)))

/-- Parsed `timestamp_<i>` field: `parseFloat(formData.get(...) as string || '0')`. -/
def timestampAt (fd : FormDataIn) (i : ℕ) : Option ℚ :=
  parseFloatJS (fieldOr (fd.timestampField i) "0")

/-- Frame record built for index `i`. -/
def frameAt (fd : FormDataIn) (i : ℕ) (fromUrl : Bool) : ResolvedFrame :=
  ⟨frameNumAt fd i, timestampAt fd i, fromUrl⟩

/-- Indices of one batch: `for (i = batchStart; i < Math.min(batchStart + 50, frameCount); i++)`. -/
def batchIndices (batchStart fcNat : ℕ) : List ℕ :=
  (List.range (min (batchStart + 50) fcNat - batchStart)).map (batchStart + ·)

/-- Resolve one batch: inline frames are decoded (and written to disk) during
the loop, in index order; referenced frames are fetched concurrently and
appended after `Promise.all`, in index order; an index with neither kind of
field contributes nothing.  A failed fetch rejects the whole batch with
`Failed to load frame <n> from storage` (the model charges the failure to the
lowest-index failing fetch; within one batch completion order is unspecified
in the source).  Returns the batch's resolution actions and either the
batch's frame list or the thrown message. -/
def resolveBatch (fd : FormDataIn) (oc : Oracles) (batchStart fcNat : ℕ) :
    List RunAction × Except String (List ResolvedFrame) :=
  let idxs := batchIndices batchStart fcNat
  let inlineIdx := idxs.filter (fun i => !(isRef fd i) && isInline fd i)
  let refIdx := idxs.filter (isRef fd)
  let inlineActs := inlineIdx.map (fun i => RunAction.resolveFrame i (frameAt fd i false))
  match refIdx.find? (fun i => !(oc.fetchOk i)) with
  | some i =>
    (inlineActs, .error ("Failed to load frame " ++ showJSNum (frameNumAt fd i) ++ " from storage"))
  | none =>
    (inlineActs ++ refIdx.map (fun i => RunAction.resolveFrame i (frameAt fd i true)),
     .ok (inlineIdx.map (fun i => frameAt fd i false) ++ refIdx.map (fun i => frameAt fd i true)))

/-- Batch start indices of the resolution loop
(`for (batchStart = 0; batchStart < frameCount; batchStart += 50)`); the
comparison with a `NaN` frame count is false, so the loop body never runs. -/
def batchStartList (fc : Option Int) : List ℕ :=
  match fc with
  | none => []
  | some v => if v ≤ 0 then [] else (List.range ((v.toNat + 49) / 50)).map (· * 50)

/-- Resolution loop over the batch starts.  Each iteration first enqueues the
batch's progress event `15 + (batchStart / frameCount) * 25` with step
`loading_batch_<floor(batchStart/50)+1>`, then resolves the batch; a batch
failure propagates out of the loop.  `fcQ` is the `frameCount` divisor of the
progress computation (the loop body never runs when it would be `NaN`). -/
def resolveLoop (fd : FormDataIn) (oc : Oracles) (fcQ : ℚ) (fcNat : ℕ) :
    List ℕ → List ResolvedFrame → List RunAction × Except String (List ResolvedFrame)
  | [], acc => ([], .ok acc)
  | b :: rest, acc =>
    let ev := RunAction.emit (.prog (15 + ((b : ℚ) / fcQ) * 25)
      ("loading_batch_" ++ toString (b / 50 + 1)))
    let batch := resolveBatch fd oc b fcNat
    match batch.2 with
    | .error msg => (ev :: batch.1, .error msg)
    | .ok fs =>
      let rest := resolveLoop fd oc fcQ fcNat rest (acc ++ fs)
      (ev :: batch.1 ++ rest.1, rest.2)

/-- Frame count as the loop bound of the resolution loop (`NaN` and negative
counts run zero iterations). -/
def fcNatOf : Option Int → ℕ
  | some v => v.toNat
  | none => 0

/-- Frame count as the rational divisor of the batch-progress computation
(never used on runs whose loop body does not execute). -/
def fcQOf : Option Int → ℚ
  | some v => (v : ℚ)
  | none => 0

/-- Trace suffix of a run whose backend call succeeded: parse results,
finalize, best-effort database save, temp cleanup, terminal `results` event
at progress 100, close. -/
def postSuccessTail : List RunAction :=
  [.emit (.prog 90 "parsing_results"),
   .emit (.prog 95 "finalizing"),
   .emit (.prog 96 "saving_to_database"),
   .saveDatabase,
   .emit (.prog 98 "cleanup"),
   .cleanupDir,
   .emit (.results 100),
   .closeStream]

/-- Trace suffix after the frame-resolution loop: a resolution failure is
caught and terminates the stream; otherwise `frames_saved` (progress 20,
resolved count), `preparing_model` (progress 30), the single backend call,
then the success tail or the caught backend error. -/
def postAfterResolve (oc : Oracles) : Except String (List ResolvedFrame) → List RunAction
  | .error msg => [.emit (.err ("Error: " ++ msg)), .closeStream]
  | .ok frames =>
    [.emit (.framesSaved 20 "frames_saved" frames.length),
     .emit (.prog 30 "preparing_model"),
     .callBackend frames] ++
    match oc.backendResult with
    | .error msg => [.emit (.err ("Error: " ++ msg)), .closeStream]
    | .ok _ => postSuccessTail

/-- Embed the `POST` handler's stream body as the trace of actions of one run.
Any error thrown inside the `try` block reaches the catch clause, which
enqueues one `error` event with message `Error: <message>` and closes the
stream; the happy path ends with the `results` event at progress 100 and
closes the stream.  Database failures are swallowed inside their own
`try`/`catch`, and `cleanup` catches internally, so neither can throw. -/
def POST (fd : FormDataIn) (oc : Oracles) : List RunAction :=
  let a5 := RunAction.emit (.prog 5 "received_request")
  let fc := frameCountOf fd
  if fc = some 0 then
    [a5, .emit (.err "Error: No frames provided"), .closeStream]
  else
    let loop := resolveLoop fd oc (fcQOf fc) (fcNatOf fc) (batchStartList fc) []
    [a5, RunAction.emit (.prog 10 "parsing_form_data"),
     RunAction.emit (.prog 15 "loading_frames_from_storage")] ++
      loop.1 ++ postAfterResolve oc loop.2

/-- Stream events enqueued by a run, in order. -/
def emittedEvents (acts : List RunAction) : List SSEEvent :=
  acts.filterMap (fun a => match a with | .emit e => some e | _ => none)

/-- Progress value carried by an event, when present. -/
def progressOf : SSEEvent → Option ℚ
  | .prog p _ => some p
  | .framesSaved p _ _ => some p
  | .results p => some p
  | .err _ => none

/-- Progress values emitted by a run, in order. -/
def progressList (acts : List RunAction) : List ℚ :=
  (emittedEvents acts).filterMap progressOf

/-- Terminal events: `results` or `error`. -/
def isTerminal : SSEEvent → Bool
  | .results _ => true
  | .err _ => true
  | _ => false

/-- Non-decreasing test for a list of rationals. -/
def monotoneQ : List ℚ → Bool
  | [] => true
  | [_] => true
  | a :: b :: rest => decide (a ≤ b) && monotoneQ (b :: rest)

/-- Concrete submission used to refute the monotonicity claim: a declared
frame count of 51 (two batches) with no frame payloads attached. -/
def cexFormData : FormDataIn :=
  ⟨some "51", none, none, fun _ => none, fun _ => none, fun _ => none,
   fun _ => none, fun _ => none⟩

/-- Oracles for an entirely successful run. -/
def happyOracles : Oracles := ⟨fun _ => true, .ok (), true⟩

/-- Concrete submission with no `frameCount` field at all: the parse falls
back to `'0'`. -/
def zeroFormData : FormDataIn :=
  ⟨none, none, none, fun _ => none, fun _ => none, fun _ => none,
   fun _ => none, fun _ => none⟩

/-- Concrete submission whose `frameCount` field holds a non-numeric string. -/
def nanFormData : FormDataIn :=
  ⟨some "abc", none, none, fun _ => none, fun _ => none, fun _ => none,
   fun _ => none, fun _ => none⟩

/-- Concrete single-batch submission: a declared frame count of 40 with no
frame payloads attached. -/
def smallFormData : FormDataIn :=
  ⟨some "40", none, none, fun _ => none, fun _ => none, fun _ => none,
   fun _ => none, fun _ => none⟩

/-! ## Theorems -/

/-- Behaviour of the retry loop when every invocation throws a retryable
error: starting `retriesLeft` retries before exhaustion at (1-indexed)
attempt `a`, the loop sleeps one capped exponential delay per retry and
finally re-throws the error of attempt `a + retriesLeft`. -/
lemma withRetryGo_err_all {V : Type} (fn : ℕ → CallOutcome V) (rand : ℕ → ℕ)
    (base : ℕ) (e : ℕ → ErrorWithCode)
    (he : ∀ k, fn k = .err (e k)) (hr : ∀ k, isRetryableError (e k) = true) :
    ∀ r a, 1 ≤ a →
      withRetryGo fn rand base r a =
        ⟨.error (e (a + r)),
         (List.range r).map (fun i => min (base * 2 ^ (a - 1 + i) + rand (a + i)) 10000),
         r + 1⟩ := by
  intro r
  induction r with
  | zero =>
    intro a _
    rw [withRetryGo, he a]
    simp
  | succ n ih =>
    intro a ha
    rw [withRetryGo]
    simp only [he a, hr a, if_true]
    rw [ih (a + 1) (by omega)]
    have hae : a + 1 + n = a + (n + 1) := by omega
    have hdelays :
        min (base * 2 ^ (a - 1) + rand a) 10000 ::
          (List.range n).map
            (fun i => min (base * 2 ^ (a + 1 - 1 + i) + rand (a + 1 + i)) 10000)
          = (List.range (n + 1)).map
              (fun i => min (base * 2 ^ (a - 1 + i) + rand (a + i)) 10000) := by
      rw [List.range_succ_eq_map, List.map_cons, List.map_map]
      congr 1
      refine List.map_congr_left ?_
      intro i _
      simp only [Function.comp_apply]
      have h1 : a - 1 + (i + 1) = a + i := by omega
      have h2 : a + (i + 1) = a + 1 + i := by omega
      rw [h1, h2]
      simp [Nat.add_sub_cancel]
    rw [hae, hdelays]

/-- C3: if every invocation of the wrapped backend call throws a retryable
error, `withRetry` invokes the call exactly `1 + maxRetries` times and
re-throws the last error, and the delay slept before the k-th retry
(1-indexed) is `min(baseDelay * 2 ^ (k-1) + jitter, 10000)` for a jitter in
`[0, baseDelay)` (the model's `rand` stands for
`Math.floor(Math.random() * baseDelay)`, whose value always lies in that
interval). -/
theorem retry_exhaustion {V : Type} (fn : ℕ → CallOutcome V) (rand : ℕ → ℕ)
    (maxRetries baseDelay : ℕ) (e : ℕ → ErrorWithCode)
    (he : ∀ k, fn k = .err (e k)) (hr : ∀ k, isRetryableError (e k) = true)
    (hrand : ∀ k, rand k < baseDelay) :
    (withRetry fn rand maxRetries baseDelay).calls = 1 + maxRetries ∧
    (withRetry fn rand maxRetries baseDelay).result = .error (e (1 + maxRetries)) ∧
    (withRetry fn rand maxRetries baseDelay).delays.length = maxRetries ∧
    ∀ k, 1 ≤ k → k ≤ maxRetries →
      ∃ j, j < baseDelay ∧
        (withRetry fn rand maxRetries baseDelay).delays.get? (k - 1) =
          some (min (baseDelay * 2 ^ (k - 1) + j) 10000) := by
  have h := withRetryGo_err_all fn rand baseDelay e he hr maxRetries 1 le_rfl
  rw [withRetry, h]
  refine ⟨show maxRetries + 1 = 1 + maxRetries by omega, by rw [Nat.add_comm], by simp, ?_⟩
  intro k hk1 hk2
  refine ⟨rand k, hrand k, ?_⟩
  have hlt : k - 1 < maxRetries := by omega
  rw [List.get?_map, List.get?_range hlt, Option.map_some']
  have h1 : 1 - 1 + (k - 1) = k - 1 := by omega
  have h2 : 1 + (k - 1) = k := by omega
  rw [h1, h2]

/-- Witness for `retry_exhaustion` at the defaults of the source
(`maxRetries = 3`, `baseDelay = 500`) with a constant status-503 error and a
concrete jitter of 100ms. -/
theorem retry_exhaustion_witness :
    (withRetry (fun _ => CallOutcome.err (V := Unit) { status := some 503 })
      (fun _ => 100) 3 500).calls = 1 + 3 ∧
    (withRetry (fun _ => CallOutcome.err (V := Unit) { status := some 503 })
      (fun _ => 100) 3 500).delays.length = 3 := by
  have h := retry_exhaustion (V := Unit)
    (fun _ => CallOutcome.err { status := some 503 }) (fun _ => 100) 3 500
    (fun _ => { status := some 503 }) (fun _ => rfl)
    (fun _ => show isRetryableError { status := some 503 } = true from by decide)
    (fun _ => show (100 : ℕ) < 500 from by decide)
  exact ⟨h.1, h.2.2.1⟩

/-- Status check as a proposition. -/
lemma statusRetry_iff (o : Option Int) :
    statusRetry o = true ↔ ∃ s, o = some s ∧ (s = 429 ∨ 500 ≤ s) := by
  cases o with
  | none => simp [statusRetry]
  | some s => simp [statusRetry]

/-- Code check as a proposition: the emptiness guard is redundant because no
transient code is the empty string. -/
lemma codeRetry_iff (o : Option String) :
    codeRetry o = true ↔ ∃ c, o = some c ∧ c ∈ transientNodeErrors := by
  cases o with
  | none => simp [codeRetry]
  | some c =>
    simp only [codeRetry, Bool.and_eq_true, Bool.not_eq_true', Option.some.injEq]
    constructor
    · rintro ⟨-, h2⟩
      refine ⟨c, rfl, ?_⟩
      rw [List.contains] at h2
      exact (List.elem_iff).mp h2
    · rintro ⟨c2, rfl, hm⟩
      fin_cases hm <;> decide

/-- Message check as a proposition (the `|| ''` fallback is the identity on
the extracted message). -/
lemma msgRetry_iff (m : Option String) :
    msgRetry m = true ↔
      (jsIncludes (jsToLower (m.getD "")) "timeout" = true ∨
       jsIncludes (jsToLower (m.getD "")) "service is currently unavailable" = true) := by
  cases m with
  | none => simp [msgRetry, jsOrStr, Or.comm]
  | some s =>
    by_cases hs : s = ""
    · subst hs; simp [msgRetry, jsOrStr, Or.comm]
    · simp [msgRetry, jsOrStr, hs, Or.comm]

/-- Sequential early returns of `isRetryableError` flatten to the spec's
disjunction. -/
lemma isRetryableError_eq_true_iff (err : ErrorWithCode) :
    isRetryableError err = true ↔ specRetryable err := by
  cases hs : statusRetry (jsOrNum err.status err.causeStatus) with
  | true =>
    simp only [isRetryableError, hs, if_true]
    simp only [specRetryable, true_iff]
    exact Or.inl ((statusRetry_iff _).mp hs)
  | false =>
    cases hc : codeRetry (jsOrStr err.code err.causeCode) with
    | true =>
      simp only [isRetryableError, hs, hc, Bool.false_eq_true, if_false, if_true]
      simp only [specRetryable, true_iff]
      exact Or.inr (Or.inl ((codeRetry_iff _).mp hc))
    | false =>
      simp only [isRetryableError, hs, hc, Bool.false_eq_true, if_false]
      rw [msgRetry_iff]
      constructor
      · intro h
        exact Or.inr (Or.inr h)
      · rintro (hcond | hcond | h)
        · rw [← statusRetry_iff] at hcond
          rw [hcond] at hs
          cases hs
        · rw [← codeRetry_iff] at hcond
          rw [hcond] at hc
          cases hc
        · exact h

/-- A non-retryable error thrown on the first attempt propagates at once. -/
lemma withRetry_nonretryable_first {V : Type} (fn : ℕ → CallOutcome V)
    (rand : ℕ → ℕ) (maxRetries baseDelay : ℕ) (e : ErrorWithCode)
    (h1 : fn 1 = .err e) (h2 : isRetryableError e = false) :
    withRetry fn rand maxRetries baseDelay = ⟨.error e, [], 1⟩ := by
  cases maxRetries with
  | zero => rw [withRetry, withRetryGo]; simp [h1]
  | succ n => rw [withRetry, withRetryGo]; simp [h1, h2]

/-- C4: `isRetryableError` classifies an error as retryable exactly when its
status (or its cause's status) is 429 or at least 500, its code (or its
cause's code) is a transient network code, or its lower-cased message
contains `timeout` or `service is currently unavailable`; and for an error
classified non-retryable, `withRetry` invokes the wrapped call exactly once
and propagates it immediately without sleeping. -/
theorem retryable_classification :
    (∀ err : ErrorWithCode, isRetryableError err = true ↔ specRetryable err) ∧
    (∀ (V : Type) (fn : ℕ → CallOutcome V) (rand : ℕ → ℕ)
       (maxRetries baseDelay : ℕ) (e : ErrorWithCode),
      fn 1 = CallOutcome.err e → isRetryableError e = false →
        withRetry fn rand maxRetries baseDelay = ⟨.error e, [], 1⟩) :=
  ⟨isRetryableError_eq_true_iff,
   fun _ fn rand maxRetries baseDelay e h1 h2 =>
     withRetry_nonretryable_first fn rand maxRetries baseDelay e h1 h2⟩

/-- Witness for `retryable_classification`: a status-400 error is classified
non-retryable, and a call that throws it is invoked once (no delay) with the
error propagated. -/
theorem retryable_classification_witness :
    (isRetryableError { status := some 400 } = true ↔
      specRetryable { status := some 400 }) ∧
    withRetry (fun _ => CallOutcome.err (V := Unit) { status := some 400 })
      (fun _ => 0) 3 500 = ⟨.error { status := some 400 }, [], 1⟩ :=
  ⟨retryable_classification.1 _,
   retryable_classification.2 Unit _ _ 3 500 _ rfl (by decide)⟩

/-- An error whose message matches no transient pattern and whose name is not
`NetworkError` fails the catch-block retryability test. -/
lemma catchRetryable_eq_false (msg name : Option String)
    (hm : ∀ m, msg = some m → ¬transientUploadMsg m)
    (hn : name ≠ some "NetworkError") :
    catchRetryable msg name = false := by
  have hnb : (name == some "NetworkError") = false := by
    exact beq_eq_false_iff_ne.mpr hn
  cases msg with
  | none => simp [catchRetryable, hnb]
  | some m =>
    have h := hm m rfl
    rw [transientUploadMsg] at h
    push_neg at h
    obtain ⟨h1, h2, h3, h4⟩ := h
    have e1 : jsIncludes m "timeout" = false := Bool.eq_false_iff.mpr h1
    have e2 : jsIncludes m "network" = false := Bool.eq_false_iff.mpr h2
    have e3 : jsIncludes m "503" = false := Bool.eq_false_iff.mpr h3
    have e4 : jsIncludes m "504" = false := Bool.eq_false_iff.mpr h4
    simp [catchRetryable, hnb, e1, e2, e3, e4]

/-- A message matching the transient pattern, or a `NetworkError` name,
passes the catch-block retryability test. -/
lemma catchRetryable_eq_true (msg : String) (name : Option String)
    (h : transientUploadMsg msg ∨ name = some "NetworkError") :
    catchRetryable (some msg) name = true := by
  rcases h with h | h
  · unfold transientUploadMsg at h
    rcases h with h | h | h | h <;> simp [catchRetryable, h]
  · simp [catchRetryable, h]

/-- C9, amended: the uploader's per-item retry policy retries an upload whose
error message matches the transient pattern (timeout/network/503/504) or
whose error name is `NetworkError`, with uncapped delay
`baseDelay * 2 ^ attempt`; within the attempt loop bounded by the configured
`maxRetries = 3`, a persistently throwing transient error is retried after
delays `base * 2^0, base * 2^1` and then re-thrown, and a persistently
returned transient storage error sleeps `base * 2^0, base * 2^1, base * 2^2`
and ends in the final `Failed to upload after 3 attempts` error; an error
neither matching the pattern nor named `NetworkError` propagates immediately
with no retry and no sleep. -/
theorem upload_retry_policy :
    (∀ (oc : ℕ → UploadOutcome) (msg name : Option String)
       (maxRetries base : ℕ), 1 ≤ maxRetries →
      oc 0 = .errThrown msg name →
      (∀ m, msg = some m → ¬transientUploadMsg m) →
      name ≠ some "NetworkError" →
      uploadWithRetry oc maxRetries base = (.thrownErr msg name, [])) ∧
    (∀ (msg : String) (name : Option String) (base : ℕ),
      transientUploadMsg msg ∨ name = some "NetworkError" →
      uploadWithRetry (fun _ => .errThrown (some msg) name) 3 base =
        (.thrownErr (some msg) name, [base * 2 ^ 0, base * 2 ^ 1])) ∧
    (∀ (msg : String) (name : Option String) (base : ℕ),
      (jsIncludes msg "timeout" = true ∨ jsIncludes msg "503" = true ∨
       jsIncludes msg "504" = true) →
      uploadWithRetry (fun _ => .errReturned msg name) 3 base =
        (.exhausted 3 (some msg), [base * 2 ^ 0, base * 2 ^ 1, base * 2 ^ 2])) := by
  refine ⟨?_, ?_, ?_⟩
  · intro oc msg name maxRetries base h1 h0 hm hn
    have hc := catchRetryable_eq_false msg name hm hn
    cases maxRetries with
    | zero => omega
    | succ n => rw [uploadWithRetry, uploadGo]; simp [h0, hc]
  · intro msg name base h
    have hc := catchRetryable_eq_true msg name h
    simp [uploadWithRetry, uploadGo, hc]
  · intro msg name base h
    have hp : returnedPattern msg = true := by
      rcases h with h | h | h <;> simp [returnedPattern, h]
    simp [uploadWithRetry, uploadGo, hp]

/-- Witness for `upload_retry_policy` at the default base delay 1000ms. -/
theorem upload_retry_policy_witness :
    uploadWithRetry (fun _ => UploadOutcome.errThrown (some "access denied") none)
      3 1000 = (.thrownErr (some "access denied") none, []) ∧
    uploadWithRetry (fun _ => UploadOutcome.errThrown (some "fetch timeout") none)
      3 1000 = (.thrownErr (some "fetch timeout") none, [1000 * 2 ^ 0, 1000 * 2 ^ 1]) ∧
    uploadWithRetry (fun _ => UploadOutcome.errReturned "503 unavailable" none)
      3 1000 = (.exhausted 3 (some "503 unavailable"),
        [1000 * 2 ^ 0, 1000 * 2 ^ 1, 1000 * 2 ^ 2]) := by
  refine ⟨?_, ?_, ?_⟩
  · refine upload_retry_policy.1 _ _ _ 3 1000 (by omega) rfl ?_ (by decide)
    intro m hm
    injection hm with h
    subst h
    unfold transientUploadMsg
    decide
  · exact upload_retry_policy.2.1 _ _ 1000 (Or.inl (by unfold transientUploadMsg; decide))
  · exact upload_retry_policy.2.2 _ _ 1000 (Or.inr (Or.inl (by decide)))

/-- C9, counterexample: an upload that always throws an error whose message
(`connection refused`) matches no transient pattern is nevertheless retried
(two delays are slept) because its name is `NetworkError`, so a non-matching
error does not always propagate immediately. -/
theorem upload_retry_cex :
    (jsIncludes "connection refused" "timeout" = false ∧
     jsIncludes "connection refused" "network" = false ∧
     jsIncludes "connection refused" "503" = false ∧
     jsIncludes "connection refused" "504" = false) ∧
    (uploadWithRetry cexUploadOutcome 3 1000).2 = [1000, 2000] := by
  exact ⟨by decide, by decide⟩

/-- Unfolding one event of the consumer fold. -/
lemma consumeSteps_cons (st : ConsumerState) (s : String) (rest : List String) :
    consumeSteps st (s :: rest) = consumeSteps (handleStepEvent st s) rest := rfl

/-- On streams of nonempty step events, `currentStep` stays equal to the last
log entry, so the code's two checks coincide with the spec's single
compare-with-previous-entry fold. -/
lemma consumeSteps_inv (evs : List String) : ∀ st : ConsumerState,
    (∀ s ∈ evs, s ≠ "") → st.currentStep = st.steps.getLast? →
    (consumeSteps st evs).steps =
      evs.foldl (fun acc s => if acc.getLast? = some s then acc else acc ++ [s]) st.steps ∧
    (consumeSteps st evs).currentStep = (consumeSteps st evs).steps.getLast? := by
  induction evs with
  | nil =>
    intro st _ hinv
    exact ⟨rfl, hinv⟩
  | cons s rest ih =>
    intro st h hinv
    have hs : s ≠ "" := h s (by simp)
    have hrest : ∀ x ∈ rest, x ≠ "" := fun x hx => h x (by simp [hx])
    rw [consumeSteps_cons, List.foldl_cons]
    by_cases hcur : st.currentStep = some s
    · have hst : handleStepEvent st s = st := by
        simp [handleStepEvent, hcur]
      have hlast : st.steps.getLast? = some s := by rw [← hinv]; exact hcur
      rw [hst, if_pos hlast]
      exact ih st hrest hinv
    · have hbne : (st.currentStep == some s) = false := beq_eq_false_iff_ne.mpr hcur
      have hsne : (s == "") = false := beq_eq_false_iff_ne.mpr hs
      have hlne : st.steps.getLast? ≠ some s := by rw [← hinv]; exact hcur
      have hst : handleStepEvent st s = ⟨st.steps ++ [s], some s⟩ := by
        rw [handleStepEvent, if_pos (by simp [hbne, hsne]), if_neg hlne]
      rw [hst, if_neg hlne]
      refine ih ⟨st.steps ++ [s], some s⟩ hrest ?_
      simp [List.getLast?_concat]

/-- C7: feeding any sequence of (nonempty) step events through the client
stream consumer produces exactly the spec's step log: each incoming step is
compared against the immediately preceding log entry, exact consecutive
duplicates are suppressed, and every other step is appended in arrival
order.  In particular two consecutive identical steps yield one entry and
the same step with a different step in between yields two entries. -/
theorem step_log_dedup (evs : List String) (h : ∀ s ∈ evs, s ≠ "") :
    (consumeSteps ⟨[], none⟩ evs).steps = stepLogSpec evs := by
  have hinv : (⟨[], none⟩ : ConsumerState).currentStep =
      (⟨[], none⟩ : ConsumerState).steps.getLast? := rfl
  rw [stepLogSpec]
  exact (consumeSteps_inv evs ⟨[], none⟩ h hinv).1

/-- Witness for `step_log_dedup`: two consecutive identical steps give one
entry; the same step repeated around a different one gives two entries. -/
theorem step_log_dedup_witness :
    (consumeSteps ⟨[], none⟩ ["a", "a"]).steps = ["a"] ∧
    (consumeSteps ⟨[], none⟩ ["a", "b", "a"]).steps = ["a", "b", "a"] := by
  constructor
  · rw [step_log_dedup ["a", "a"] (by decide)]
    decide
  · rw [step_log_dedup ["a", "b", "a"] (by decide)]
    decide

/-- The explicit flooring division agrees with the mathematical floor. -/
lemma ratFloor_eq_floor (q : ℚ) : ratFloor q = ⌊q⌋ := Rat.floor_def.symm

/-- Stored value of an exact 0. -/
lemma clampedStore_zero : clampedStore 0 = 0 := by
  have hf : ratFloor (0 : ℚ) = 0 := by rw [ratFloor_eq_floor]; norm_num
  simp only [clampedStore, roundHalfEven, hf]
  norm_num

/-- Stored value of an exact 255. -/
lemma clampedStore_255 : clampedStore 255 = 255 := by
  have hf : ratFloor (255 : ℚ) = 255 := by rw [ratFloor_eq_floor]; norm_num
  simp only [clampedStore, roundHalfEven, hf]
  norm_num
  decide

/-- Stored value of the window-center output 127.5: the tie rounds to the
even neighbour 128. -/
lemma clampedStore_half255 : clampedStore (255 / 2) = 128 := by
  have hf : ratFloor (255 / 2 : ℚ) = 127 := by
    rw [ratFloor_eq_floor]
    rw [Int.floor_eq_iff]
    constructor
    · norm_num
    · norm_num
  simp only [clampedStore, roundHalfEven, hf]
  norm_num
  decide

/-- With the auto-window (`center = (max+min)/2`, `width = max-min`), the
window edges used by the code are exactly the observed min and max. -/
lemma windowPixel_eval (mn mx p : ℚ) (mono1 : Bool) :
    windowPixel mono1 mn mx p =
      (if mono1 then 255 -
        (if p ≤ mn then 0 else if mx ≤ p then 255
         else ((p - mn) / (mx - mn)) * 255)
      else
        (if p ≤ mn then 0 else if mx ≤ p then 255
         else ((p - mn) / (mx - mn)) * 255)) := by
  have hlower : (mx + mn) / 2 - (mx - mn) / 2 = mn := by ring
  have hupper : (mx + mn) / 2 + (mx - mn) / 2 = mx := by ring
  rw [windowPixel]
  rw [hlower, hupper]

/-- C8: for a single-sample-per-pixel buffer with observed `min < max`, the
auto-windowed rescale maps a pixel at `min` to the stored value 0, a pixel at
`max` to 255, and a pixel at the exact window center to 127 or 128 (the
IEEE round of 127.5 is 128); with the inverted `MONOCHROME1` photometric
interpretation the outputs flip, `min` to 255 and `max` to 0. -/
theorem windowing_roundtrip (mn mx : ℚ) (h : mn < mx) :
    clampedStore (windowPixel false mn mx mn) = 0 ∧
    clampedStore (windowPixel false mn mx mx) = 255 ∧
    (clampedStore (windowPixel false mn mx ((mx + mn) / 2)) = 127 ∨
     clampedStore (windowPixel false mn mx ((mx + mn) / 2)) = 128) ∧
    clampedStore (windowPixel true mn mx mn) = 255 ∧
    clampedStore (windowPixel true mn mx mx) = 0 := by
  have hne : mx - mn ≠ 0 := sub_ne_zero.mpr (ne_of_gt h)
  have hcgt : ¬((mx + mn) / 2 ≤ mn) := by intro hc; linarith
  have hclt : ¬(mx ≤ (mx + mn) / 2) := by intro hc; linarith
  have hmaxmin : ¬(mx ≤ mn) := by linarith
  have hcenter : (((mx + mn) / 2 - mn) / (mx - mn)) * 255 = 255 / 2 := by
    rw [show (mx + mn) / 2 - mn = (mx - mn) / 2 by ring]
    field_simp
    ring
  have e1 : windowPixel false mn mx mn = 0 := by
    rw [windowPixel_eval]
    simp
  have e2 : windowPixel false mn mx mx = 255 := by
    rw [windowPixel_eval]
    simp [hmaxmin]
  have e3 : windowPixel false mn mx ((mx + mn) / 2) = 255 / 2 := by
    rw [windowPixel_eval]
    simp only [if_neg hcgt, if_neg hclt, if_false]
    exact hcenter
  have e4 : windowPixel true mn mx mn = 255 := by
    rw [windowPixel_eval]
    simp
  have e5 : windowPixel true mn mx mx = 0 := by
    rw [windowPixel_eval]
    simp [hmaxmin]
  refine ⟨by rw [e1]; exact clampedStore_zero, by rw [e2]; exact clampedStore_255,
    Or.inr (by rw [e3]; exact clampedStore_half255),
    by rw [e4]; exact clampedStore_255, by rw [e5]; exact clampedStore_zero⟩

/-- Witness for `windowing_roundtrip` on a concrete buffer range 0..10. -/
theorem windowing_roundtrip_witness :
    clampedStore (windowPixel false 0 10 0) = 0 ∧
    clampedStore (windowPixel false 0 10 10) = 255 ∧
    (clampedStore (windowPixel false 0 10 ((10 + 0) / 2)) = 127 ∨
     clampedStore (windowPixel false 0 10 ((10 + 0) / 2)) = 128) ∧
    clampedStore (windowPixel true 0 10 0) = 255 ∧
    clampedStore (windowPixel true 0 10 10) = 0 :=
  windowing_roundtrip 0 10 (by norm_num)

/-- Indices of one batch are exactly the interval
`[batchStart, min (batchStart + 50) frameCount)`. -/
lemma mem_batchIndices {i b n : ℕ} :
    i ∈ batchIndices b n ↔ b ≤ i ∧ i < min (b + 50) n := by
  simp only [batchIndices, List.mem_map, List.mem_range]
  constructor
  · rintro ⟨j, hj, rfl⟩
    omega
  · rintro ⟨h1, h2⟩
    exact ⟨i - b, by omega, by omega⟩

/-- Every action of one batch's resolution is the resolution of a frame
whose index lies in that batch. -/
lemma resolveBatch_actions (fd : FormDataIn) (oc : Oracles) (b n : ℕ) :
    ∀ a ∈ (resolveBatch fd oc b n).1,
      ∃ i f, a = RunAction.resolveFrame i f ∧ b ≤ i ∧ i < min (b + 50) n := by
  intro a ha
  simp only [resolveBatch] at ha
  split at ha
  · simp only [List.mem_map] at ha
    obtain ⟨j, hj, rfl⟩ := ha
    have hm := (List.mem_filter.mp hj).1
    exact ⟨j, _, rfl, (mem_batchIndices.mp hm).1, (mem_batchIndices.mp hm).2⟩
  · simp only [List.mem_append, List.mem_map] at ha
    rcases ha with ⟨j, hj, rfl⟩ | ⟨j, hj, rfl⟩
    · have hm := (List.mem_filter.mp hj).1
      exact ⟨j, _, rfl, (mem_batchIndices.mp hm).1, (mem_batchIndices.mp hm).2⟩
    · have hm := (List.mem_filter.mp hj).1
      exact ⟨j, _, rfl, (mem_batchIndices.mp hm).1, (mem_batchIndices.mp hm).2⟩

/-- Enqueued events distribute over trace concatenation. -/
lemma emittedEvents_append (l1 l2 : List RunAction) :
    emittedEvents (l1 ++ l2) = emittedEvents l1 ++ emittedEvents l2 :=
  List.filterMap_append l1 l2 _

/-- An event was enqueued exactly when its emit action is in the trace. -/
lemma mem_emittedEvents {e : SSEEvent} {acts : List RunAction} :
    e ∈ emittedEvents acts ↔ RunAction.emit e ∈ acts := by
  simp only [emittedEvents, List.mem_filterMap]
  constructor
  · rintro ⟨a, ha, hfa⟩
    cases a <;> simp_all
  · intro h
    exact ⟨RunAction.emit e, h, rfl⟩

/-- Progress values distribute over trace concatenation. -/
lemma progressList_append (l1 l2 : List RunAction) :
    progressList (l1 ++ l2) = progressList l1 ++ progressList l2 := by
  rw [progressList, emittedEvents_append, List.filterMap_append]
  rfl

/-- The resolution loop enqueues only plain progress events (the per-batch
`loading_batch_<n>` updates); in particular no terminal event. -/
lemma resolveLoop_emits_prog (fd : FormDataIn) (oc : Oracles) (fcQ : ℚ) (fcNat : ℕ) :
    ∀ (bs : List ℕ) (acc : List ResolvedFrame) (e : SSEEvent),
      RunAction.emit e ∈ (resolveLoop fd oc fcQ fcNat bs acc).1 →
      ∃ p s, e = SSEEvent.prog p s := by
  intro bs
  induction bs with
  | nil =>
    intro acc e he
    simp [resolveLoop] at he
  | cons b rest ih =>
    intro acc e he
    simp only [resolveLoop] at he
    split at he
    · rcases List.mem_cons.mp he with heq | hmem
      · injection heq with h
        exact ⟨_, _, h⟩
      · obtain ⟨i, f, heq, -, -⟩ := resolveBatch_actions fd oc b fcNat _ hmem
        exact absurd heq (by simp)
    · rcases List.mem_cons.mp he with heq | hmem
      · injection heq with h
        exact ⟨_, _, h⟩
      · rcases List.mem_append.mp hmem with hmem1 | hmem2
        · obtain ⟨i, f, heq, -, -⟩ := resolveBatch_actions fd oc b fcNat _ hmem1
          exact absurd heq (by simp)
        · exact ih _ e hmem2

/-- Shape of a fully successful resolution loop: the trace is the
concatenation, batch by batch, of one `loading_batch_<n>` progress event at
`15 + (batchStart / frameCount) * 25` followed by that batch's frame
resolutions, and every batch resolved successfully. -/
lemma resolveLoop_ok_shape (fd : FormDataIn) (oc : Oracles) (fcQ : ℚ) (fcNat : ℕ) :
    ∀ (bs : List ℕ) (acc frames : List ResolvedFrame),
      (resolveLoop fd oc fcQ fcNat bs acc).2 = .ok frames →
      (resolveLoop fd oc fcQ fcNat bs acc).1 =
        (bs.map (fun (b : ℕ) =>
          RunAction.emit (SSEEvent.prog (15 + ((b : ℚ) / fcQ) * 25)
            ("loading_batch_" ++ toString (b / 50 + 1)))
            :: (resolveBatch fd oc b fcNat).1)).flatten ∧
      ∀ b ∈ bs, ∃ fs, (resolveBatch fd oc b fcNat).2 = .ok fs := by
  intro bs
  induction bs with
  | nil =>
    intro acc frames _
    simp [resolveLoop]
  | cons b rest ih =>
    intro acc frames hok
    simp only [resolveLoop] at hok ⊢
    cases hb : (resolveBatch fd oc b fcNat).2 with
    | error msg =>
      rw [hb] at hok
      simp at hok
    | ok fs =>
      rw [hb] at hok
      dsimp only at hok ⊢
      obtain ⟨h1, h2⟩ := ih (acc ++ fs) frames hok
      constructor
      · rw [List.map_cons, List.flatten_cons, h1]
      · intro b2 hb2
        rcases List.mem_cons.mp hb2 with rfl | hmem
        · exact ⟨fs, hb⟩
        · exact h2 b2 hmem

/-- The trace after the resolution loop always ends with exactly one terminal
event followed by the stream close, and enqueues no terminal event before it. -/
lemma postAfterResolve_decomp (oc : Oracles) (res : Except String (List ResolvedFrame)) :
    ∃ mid t, postAfterResolve oc res = mid ++ [RunAction.emit t, RunAction.closeStream] ∧
      isTerminal t = true ∧ ∀ e, RunAction.emit e ∈ mid → isTerminal e = false := by
  cases res with
  | error msg =>
    refine ⟨[], .err ("Error: " ++ msg), rfl, rfl, ?_⟩
    intro e he
    simp at he
  | ok frames =>
    cases hb : oc.backendResult with
    | error msg =>
      refine ⟨[.emit (.framesSaved 20 "frames_saved" frames.length),
               .emit (.prog 30 "preparing_model"), .callBackend frames],
        .err ("Error: " ++ msg), ?_, rfl, ?_⟩
      · simp only [postAfterResolve]
        rw [hb]
      · intro e he
        simp at he
        rcases he with rfl | rfl <;> rfl
    | ok u =>
      refine ⟨[.emit (.framesSaved 20 "frames_saved" frames.length),
               .emit (.prog 30 "preparing_model"), .callBackend frames,
               .emit (.prog 90 "parsing_results"), .emit (.prog 95 "finalizing"),
               .emit (.prog 96 "saving_to_database"), .saveDatabase,
               .emit (.prog 98 "cleanup"), .cleanupDir],
        .results 100, ?_, rfl, ?_⟩
      · simp only [postAfterResolve]
        rw [hb, postSuccessTail]
        rfl
      · intro e he
        simp at he
        rcases he with rfl | rfl | rfl | rfl | rfl | rfl <;> rfl

/-- C2: every run of the orchestrator enqueues exactly one terminal event
(`results` on success, `error` on failure), no event of any kind follows it,
and the stream is closed immediately after it. -/
theorem single_terminal_event (fd : FormDataIn) (oc : Oracles) :
    ∃ pre t, POST fd oc = pre ++ [RunAction.emit t, RunAction.closeStream] ∧
      isTerminal t = true ∧ ∀ e, RunAction.emit e ∈ pre → isTerminal e = false := by
  by_cases h0 : frameCountOf fd = some 0
  · refine ⟨[RunAction.emit (.prog 5 "received_request")],
      .err "Error: No frames provided", ?_, rfl, ?_⟩
    · simp only [POST]
      rw [if_pos h0]
      rfl
    · intro e he
      simp at he
      subst he
      rfl
  · obtain ⟨mid, t, hmid, ht, hmidall⟩ := postAfterResolve_decomp oc
      (resolveLoop fd oc (fcQOf (frameCountOf fd)) (fcNatOf (frameCountOf fd))
        (batchStartList (frameCountOf fd)) []).2
    refine ⟨[RunAction.emit (.prog 5 "received_request"),
             RunAction.emit (.prog 10 "parsing_form_data"),
             RunAction.emit (.prog 15 "loading_frames_from_storage")] ++
            (resolveLoop fd oc (fcQOf (frameCountOf fd)) (fcNatOf (frameCountOf fd))
              (batchStartList (frameCountOf fd)) []).1 ++ mid, t, ?_, ht, ?_⟩
    · simp only [POST]
      rw [if_neg h0, hmid]
      simp [List.append_assoc]
    · intro e he
      rcases List.mem_append.mp he with h | h
      · rcases List.mem_append.mp h with h | h
        · simp at h
          rcases h with rfl | rfl | rfl <;> rfl
        · obtain ⟨p, s, rfl⟩ := resolveLoop_emits_prog fd oc _ _ _ _ e h
          rfl
      · exact hmidall e h

/-- C6: when the submitted `frameCount` field parses to exactly 0 (including
an absent field, whose parse falls back to `'0'`), the run consists of the
initial progress event, a single `error` event whose message contains
`No frames provided`, and the stream close — no frame is resolved and the
analysis backend is never invoked. -/
theorem zero_frames_error (fd : FormDataIn) (oc : Oracles)
    (h : frameCountOf fd = some 0) :
    POST fd oc = [RunAction.emit (.prog 5 "received_request"),
      RunAction.emit (.err "Error: No frames provided"), RunAction.closeStream] ∧
    jsIncludes "Error: No frames provided" "No frames provided" = true ∧
    ∀ a ∈ POST fd oc, (∀ i f, a ≠ RunAction.resolveFrame i f) ∧
      ∀ fs, a ≠ RunAction.callBackend fs := by
  have hPOST : POST fd oc = [RunAction.emit (.prog 5 "received_request"),
      RunAction.emit (.err "Error: No frames provided"), RunAction.closeStream] := by
    simp only [POST]
    rw [if_pos h]
  refine ⟨hPOST, by decide, ?_⟩
  intro a ha
  rw [hPOST] at ha
  simp at ha
  rcases ha with rfl | rfl | rfl <;>
    exact ⟨fun i f => by simp, fun fs => by simp⟩

/-- Witness for `zero_frames_error`: a submission without a `frameCount`
field takes the zero-frame error path. -/
theorem zero_frames_error_witness :
    POST zeroFormData happyOracles =
      [RunAction.emit (.prog 5 "received_request"),
       RunAction.emit (.err "Error: No frames provided"), RunAction.closeStream] ∧
    jsIncludes "Error: No frames provided" "No frames provided" = true :=
  ⟨(zero_frames_error zeroFormData happyOracles (by decide)).1,
   (zero_frames_error zeroFormData happyOracles (by decide)).2.1⟩

/-- C10: when the `frameCount` field parses to `NaN`, the zero-frame guard
does not fire and the batched loop runs zero iterations (a comparison with
`NaN` is false), so the run proceeds directly to `frames_saved` with a
resolved count of 0 and invokes the analysis backend with an empty frame
list instead of terminating with an error. -/
theorem nan_frame_count (fd : FormDataIn) (oc : Oracles)
    (h : frameCountOf fd = none) :
    ∃ rest, POST fd oc =
      [RunAction.emit (.prog 5 "received_request"),
       RunAction.emit (.prog 10 "parsing_form_data"),
       RunAction.emit (.prog 15 "loading_frames_from_storage"),
       RunAction.emit (.framesSaved 20 "frames_saved" 0),
       RunAction.emit (.prog 30 "preparing_model"),
       RunAction.callBackend []] ++ rest := by
  have hne : ¬(frameCountOf fd = some 0) := by rw [h]; simp
  cases hb : oc.backendResult with
  | error msg =>
    refine ⟨[.emit (.err ("Error: " ++ msg)), .closeStream], ?_⟩
    simp only [POST]
    rw [if_neg hne, h]
    simp [resolveLoop, batchStartList, postAfterResolve, hb]
  | ok u =>
    refine ⟨postSuccessTail, ?_⟩
    simp only [POST]
    rw [if_neg hne, h]
    simp [resolveLoop, batchStartList, postAfterResolve, hb]

/-- Witness for `nan_frame_count` on the concrete field value `abc`. -/
theorem nan_frame_count_witness :
    ∃ rest, POST nanFormData happyOracles =
      [RunAction.emit (.prog 5 "received_request"),
       RunAction.emit (.prog 10 "parsing_form_data"),
       RunAction.emit (.prog 15 "loading_frames_from_storage"),
       RunAction.emit (.framesSaved 20 "frames_saved" 0),
       RunAction.emit (.prog 30 "preparing_model"),
       RunAction.callBackend []] ++ rest :=
  nan_frame_count nanFormData happyOracles (by decide)

/-- A batch's frame resolutions enqueue no event at all. -/
lemma emittedEvents_resolveBatch (fd : FormDataIn) (oc : Oracles) (b n : ℕ) :
    emittedEvents (resolveBatch fd oc b n).1 = [] := by
  rw [emittedEvents, List.filterMap_eq_nil]
  intro a ha
  obtain ⟨i, f, rfl, -, -⟩ := resolveBatch_actions fd oc b n a ha
  rfl

/-- C5: on a run whose frame resolution succeeds, the resolution trace is,
batch by batch over starts `0, 50, 100, ...` (fixed batches of 50), one
progress event `15 + (batchStart / frameCount) * 25` with step
`loading_batch_<floor(batchStart/50)+1>` followed by that batch's frame
resolutions (indices within the batch), before the next batch's event. -/
theorem batch_progress_events (fd : FormDataIn) (oc : Oracles) (v : ℤ)
    (hv : frameCountOf fd = some v) (hpos : 0 < v)
    (frames : List ResolvedFrame)
    (hok : (resolveLoop fd oc (fcQOf (some v)) (fcNatOf (some v))
      (batchStartList (some v)) []).2 = .ok frames) :
    (∃ rest, POST fd oc =
      [RunAction.emit (.prog 5 "received_request"),
       RunAction.emit (.prog 10 "parsing_form_data"),
       RunAction.emit (.prog 15 "loading_frames_from_storage")] ++
      ((batchStartList (some v)).map (fun (b : ℕ) =>
        RunAction.emit (SSEEvent.prog (15 + ((b : ℚ) / (v : ℚ)) * 25)
          ("loading_batch_" ++ toString (b / 50 + 1)))
          :: (resolveBatch fd oc b (fcNatOf (some v))).1)).flatten ++ rest) ∧
    batchStartList (some v) =
      (List.range ((v.toNat + 49) / 50)).map (fun j => j * 50) ∧
    ∀ b ∈ batchStartList (some v),
      ∀ a ∈ (resolveBatch fd oc b (fcNatOf (some v))).1,
        ∃ i f, a = RunAction.resolveFrame i f ∧ b ≤ i ∧ i < min (b + 50) v.toNat := by
  have hne : ¬(frameCountOf fd = some 0) := by
    rw [hv]
    intro hc
    injection hc with hc
    omega
  obtain ⟨h1, -⟩ := resolveLoop_ok_shape fd oc (fcQOf (some v)) (fcNatOf (some v))
    (batchStartList (some v)) [] frames hok
  refine ⟨⟨postAfterResolve oc (resolveLoop fd oc (fcQOf (some v)) (fcNatOf (some v))
      (batchStartList (some v)) []).2, ?_⟩, ?_, ?_⟩
  · simp only [POST]
    rw [if_neg hne, hv, h1]
    simp only [fcQOf, List.append_assoc]
  · rw [batchStartList, if_neg (by omega)]
  · intro b hb a ha
    exact resolveBatch_actions fd oc b (fcNatOf (some v)) a ha

/-- Witness for `batch_progress_events` on a 51-frame submission carrying no
frame payloads: two batches with starts 0 and 50, each resolving (vacuously)
before the next batch's event. -/
theorem batch_progress_events_witness :
    (∃ rest, POST cexFormData happyOracles =
      [RunAction.emit (.prog 5 "received_request"),
       RunAction.emit (.prog 10 "parsing_form_data"),
       RunAction.emit (.prog 15 "loading_frames_from_storage")] ++
      ((batchStartList (some 51)).map (fun (b : ℕ) =>
        RunAction.emit (SSEEvent.prog (15 + ((b : ℚ) / ((51 : ℤ) : ℚ)) * 25)
          ("loading_batch_" ++ toString (b / 50 + 1)))
          :: (resolveBatch cexFormData happyOracles b (fcNatOf (some 51))).1)).flatten ++ rest) ∧
    batchStartList (some 51) =
      (List.range (((51 : ℤ).toNat + 49) / 50)).map (fun j => j * 50) ∧
    ∀ b ∈ batchStartList (some 51),
      ∀ a ∈ (resolveBatch cexFormData happyOracles b (fcNatOf (some 51))).1,
        ∃ i f, a = RunAction.resolveFrame i f ∧ b ≤ i ∧ i < min (b + 50) (51 : ℤ).toNat :=
  batch_progress_events cexFormData happyOracles 51 (by decide) (by decide) [] (by rfl)

/-- Progress values of the concatenated batch segments: one value per batch. -/
lemma progressList_segments (fd : FormDataIn) (oc : Oracles) (fcQ : ℚ) (fcNat : ℕ) :
    ∀ bs : List ℕ,
      progressList ((bs.map (fun (b : ℕ) =>
        RunAction.emit (SSEEvent.prog (15 + ((b : ℚ) / fcQ) * 25)
          ("loading_batch_" ++ toString (b / 50 + 1)))
          :: (resolveBatch fd oc b fcNat).1)).flatten) =
      bs.map (fun (b : ℕ) => 15 + ((b : ℚ) / fcQ) * 25) := by
  intro bs
  induction bs with
  | nil => rfl
  | cons b rest ih =>
    rw [List.map_cons, List.flatten_cons, progressList_append, ih, List.map_cons]
    have hb : progressList ((resolveBatch fd oc b fcNat).1) = [] := by
      rw [progressList, emittedEvents_resolveBatch]
      rfl
    rw [← List.singleton_append, progressList_append, hb]
    rfl

/-- Progress values of a fully successful resolution loop. -/
lemma progressList_resolveLoop_ok (fd : FormDataIn) (oc : Oracles) (fcQ : ℚ)
    (fcNat : ℕ) (bs : List ℕ) (frames : List ResolvedFrame)
    (hok : (resolveLoop fd oc fcQ fcNat bs []).2 = .ok frames) :
    progressList (resolveLoop fd oc fcQ fcNat bs []).1 =
      bs.map (fun (b : ℕ) => 15 + ((b : ℚ) / fcQ) * 25) := by
  obtain ⟨h1, -⟩ := resolveLoop_ok_shape fd oc fcQ fcNat bs [] frames hok
  rw [h1, progressList_segments]

/-- Full trace of a successful run. -/
lemma POST_success_shape (fd : FormDataIn) (oc : Oracles) (frames : List ResolvedFrame)
    (h0 : ¬ frameCountOf fd = some 0)
    (hok : (resolveLoop fd oc (fcQOf (frameCountOf fd)) (fcNatOf (frameCountOf fd))
      (batchStartList (frameCountOf fd)) []).2 = .ok frames)
    (hbe : oc.backendResult = .ok ()) :
    POST fd oc =
      [RunAction.emit (.prog 5 "received_request"),
       RunAction.emit (.prog 10 "parsing_form_data"),
       RunAction.emit (.prog 15 "loading_frames_from_storage")] ++
      (resolveLoop fd oc (fcQOf (frameCountOf fd)) (fcNatOf (frameCountOf fd))
        (batchStartList (frameCountOf fd)) []).1 ++
      ([RunAction.emit (.framesSaved 20 "frames_saved" frames.length),
        RunAction.emit (.prog 30 "preparing_model"),
        RunAction.callBackend frames] ++ postSuccessTail) := by
  simp only [POST]
  rw [if_neg h0, hok]
  simp only [postAfterResolve]
  rw [hbe]

/-- C1, amended: on every successful run (one whose stream carries the
`results` event at progress 100) the final emitted progress value is exactly
100, and whenever the declared frame count needs at most one batch
(`frameCount ≤ 50`) the emitted progress sequence is non-decreasing.  (With
more than one batch the `frames_saved` event at progress 20 follows batch
events above 20, so the sequence is not non-decreasing; see the
counterexample.) -/
theorem progress_monotone_single_batch (fd : FormDataIn) (oc : Oracles)
    (hres : SSEEvent.results 100 ∈ emittedEvents (POST fd oc)) :
    (progressList (POST fd oc)).getLast? = some 100 ∧
    ((∀ v, frameCountOf fd = some v → v ≤ 50) →
      monotoneQ (progressList (POST fd oc)) = true) := by
  by_cases h0 : frameCountOf fd = some 0
  · exfalso
    have hP : POST fd oc = [RunAction.emit (.prog 5 "received_request"),
        RunAction.emit (.err "Error: No frames provided"), RunAction.closeStream] := by
      simp only [POST]
      rw [if_pos h0]
    rw [hP] at hres
    simp [emittedEvents] at hres
  · rcases hok : (resolveLoop fd oc (fcQOf (frameCountOf fd)) (fcNatOf (frameCountOf fd))
      (batchStartList (frameCountOf fd)) []).2 with msg | frames
    · exfalso
      have hP : POST fd oc =
          [RunAction.emit (.prog 5 "received_request"),
           RunAction.emit (.prog 10 "parsing_form_data"),
           RunAction.emit (.prog 15 "loading_frames_from_storage")] ++
          (resolveLoop fd oc (fcQOf (frameCountOf fd)) (fcNatOf (frameCountOf fd))
            (batchStartList (frameCountOf fd)) []).1 ++
          [RunAction.emit (.err ("Error: " ++ msg)), RunAction.closeStream] := by
        simp only [POST]
        rw [if_neg h0, hok]
        simp only [postAfterResolve]
      rw [hP, emittedEvents_append, emittedEvents_append] at hres
      rcases List.mem_append.mp hres with h | h
      · rcases List.mem_append.mp h with h | h
        · simp [emittedEvents] at h
        · obtain ⟨p, s, heq⟩ := resolveLoop_emits_prog fd oc _ _ _ _ _
            (mem_emittedEvents.mp h)
          exact SSEEvent.noConfusion heq
      · simp [emittedEvents] at h
    · rcases hbe : oc.backendResult with msg | u
      · exfalso
        have hP : POST fd oc =
            [RunAction.emit (.prog 5 "received_request"),
             RunAction.emit (.prog 10 "parsing_form_data"),
             RunAction.emit (.prog 15 "loading_frames_from_storage")] ++
            (resolveLoop fd oc (fcQOf (frameCountOf fd)) (fcNatOf (frameCountOf fd))
              (batchStartList (frameCountOf fd)) []).1 ++
            ([RunAction.emit (.framesSaved 20 "frames_saved" frames.length),
              RunAction.emit (.prog 30 "preparing_model"),
              RunAction.callBackend frames] ++
             [RunAction.emit (.err ("Error: " ++ msg)), RunAction.closeStream]) := by
          simp only [POST]
          rw [if_neg h0, hok]
          simp only [postAfterResolve]
          rw [hbe]
        rw [hP, emittedEvents_append, emittedEvents_append] at hres
        rcases List.mem_append.mp hres with h | h
        · rcases List.mem_append.mp h with h | h
          · simp [emittedEvents] at h
          · obtain ⟨p, s, heq⟩ := resolveLoop_emits_prog fd oc _ _ _ _ _
              (mem_emittedEvents.mp h)
            exact SSEEvent.noConfusion heq
        · simp [emittedEvents] at h
      · cases u
        have hP := POST_success_shape fd oc frames h0 hok hbe
        have hplist : progressList (POST fd oc) =
            [5, 10, 15] ++
            progressList (resolveLoop fd oc (fcQOf (frameCountOf fd))
              (fcNatOf (frameCountOf fd)) (batchStartList (frameCountOf fd)) []).1 ++
            [20, 30, 90, 95, 96, 98, 100] := by
          rw [hP, progressList_append, progressList_append]
          rfl
        constructor
        · rw [hplist]
          rw [List.getLast?_append_of_ne_nil]
          · rfl
          · simp
        · intro hfc
          have hloopP := progressList_resolveLoop_ok fd oc (fcQOf (frameCountOf fd))
            (fcNatOf (frameCountOf fd)) (batchStartList (frameCountOf fd)) frames hok
          cases hcv : frameCountOf fd with
          | none =>
            rw [hcv] at hplist hloopP
            rw [show batchStartList (none : Option Int) = [] from rfl] at hplist hloopP
            rw [hplist, hloopP]
            simp only [List.map_nil]
            decide
          | some v =>
            have hv50 := hfc v hcv
            rw [hcv] at hplist hloopP
            by_cases hvpos : v ≤ 0
            · have hbs : batchStartList (some v) = [] := by
                rw [batchStartList, if_pos hvpos]
              rw [hbs] at hloopP hplist
              rw [hplist, hloopP]
              simp only [List.map_nil]
              decide
            · have h1n : (v.toNat + 49) / 50 = 1 := by omega
              have hbs : batchStartList (some v) = [0] := by
                rw [batchStartList, if_neg hvpos, h1n]
                rfl
              rw [hbs] at hloopP hplist
              rw [hplist, hloopP]
              simp only [List.map_cons, List.map_nil, Nat.cast_zero, zero_div, zero_mul,
                add_zero]
              decide

/-- Witness for `progress_monotone_single_batch`: a successful 40-frame
(single-batch) run has non-decreasing progress ending at 100. -/
theorem progress_monotone_single_batch_witness :
    (progressList (POST smallFormData happyOracles)).getLast? = some 100 ∧
    monotoneQ (progressList (POST smallFormData happyOracles)) = true := by
  have h := progress_monotone_single_batch smallFormData happyOracles (by decide)
  refine ⟨h.1, h.2 ?_⟩
  intro v hv
  rw [show frameCountOf smallFormData = some 40 from by decide] at hv
  injection hv with hv
  omega

/-- The boolean non-decreasing test agrees with the chain of `≤` relations. -/
lemma monotoneQ_iff (l : List ℚ) : monotoneQ l = true ↔ l.Chain' (· ≤ ·) := by
  induction l with
  | nil => simp [monotoneQ]
  | cons a t ih =>
    cases t with
    | nil => simp [monotoneQ]
    | cons b t2 =>
      rw [monotoneQ]
      simp [Bool.and_eq_true, decide_eq_true_eq, ih, List.chain'_cons]

/-- C1, counterexample: the successful run of a 51-frame submission (two
batches) ends with `results` at progress 100, yet its progress sequence is
not non-decreasing — the second batch event carries
`15 + (50/51) * 25 > 20` and is followed by the `frames_saved` event at
progress 20. -/
theorem progress_monotonicity_cex :
    SSEEvent.results 100 ∈ emittedEvents (POST cexFormData happyOracles) ∧
    monotoneQ (progressList (POST cexFormData happyOracles)) = false := by
  have h0 : ¬ frameCountOf cexFormData = some 0 := by decide
  have hok : (resolveLoop cexFormData happyOracles (fcQOf (frameCountOf cexFormData))
      (fcNatOf (frameCountOf cexFormData)) (batchStartList (frameCountOf cexFormData))
      []).2 = .ok [] := by rfl
  have hbe : happyOracles.backendResult = .ok () := rfl
  have hP := POST_success_shape cexFormData happyOracles [] h0 hok hbe
  have hloopP := progressList_resolveLoop_ok cexFormData happyOracles
    (fcQOf (frameCountOf cexFormData)) (fcNatOf (frameCountOf cexFormData))
    (batchStartList (frameCountOf cexFormData)) [] hok
  have hbs : batchStartList (frameCountOf cexFormData) = [0, 50] := by decide
  have hplist : progressList (POST cexFormData happyOracles) =
      [5, 10, 15] ++
      progressList (resolveLoop cexFormData happyOracles
        (fcQOf (frameCountOf cexFormData)) (fcNatOf (frameCountOf cexFormData))
        (batchStartList (frameCountOf cexFormData)) []).1 ++
      [20, 30, 90, 95, 96, 98, 100] := by
    rw [hP, progressList_append, progressList_append]
    rfl
  rw [hbs] at hloopP hplist
  rw [hloopP] at hplist
  constructor
  · decide
  · rw [Bool.eq_false_iff]
    intro hmono
    rw [monotoneQ_iff, hplist] at hmono
    simp only [List.map_cons, List.map_nil, List.cons_append, List.nil_append,
      List.chain'_cons] at hmono
    have hbad := hmono.2.2.2.2.1
    rw [show frameCountOf cexFormData = some 51 from by decide] at hbad
    rw [fcQOf] at hbad
    push_cast at hbad
    norm_num at hbad
